import Mathlib

/-!
# Verification of the MoSync MAUI `ListBox` contract and `FacebookObject`

This file gives a shallow embedding of the two source fragments of the
repository:

* `src/libs/MAUI/ListBox.h` — the list-box widget.  The header only declares
  the interface; the method bodies (`ListBox.cpp`) are not part of the visible
  source, so the operations below are modelled from the design specification's
  description of the selection / scroll / animation state machine.  Each such
  definition carries a doc comment starting with `Modelled from the spec:`.
* `src/libs/Facebook/.../FacebookObject.cpp` — a data holder wrapping a single
  string identifier; its method bodies are embedded directly.
-/

namespace MAUI

/-- Child widgets are opaque handles; we model a handle as a natural number. -/
abbrev Widget := Nat

/-- `ListBox::ListBoxOrientation` from `ListBox.h` (lines 59-62). -/
inductive ListBoxOrientation where
  | LBO_HORIZONTAL
  | LBO_VERTICAL
deriving DecidableEq, Repr

/-- `ListBox::ListBoxAnimationType` from `ListBox.h` (lines 64-67). -/
inductive ListBoxAnimationType where
  | LBA_NONE
  | LBA_LINEAR
deriving DecidableEq, Repr

/-- Modelled from the spec: the in-flight linear animation record — the spec's
data model says animation state is either fully absent or fully populated with
`(offsetFrom, offsetTo, startTime)`; the fields correspond to the members
`mYOffsetFrom`, `mYOffsetTo`, `mAnimTimeStart` declared in `ListBox.h`.  The
animation duration is mentioned by the spec ("when elapsed time reaches the
animation duration") but its value is not given, so it is carried as a field. -/
structure AnimParams where
  offsetFrom : Int
  offsetTo : Int
  startTime : Nat
  duration : Nat
deriving DecidableEq, Repr

/-- Modelled from the spec: the `ListBoxController` state.  `ListBox.cpp` is
not part of the visible source, so the state is taken from the spec's data
model (section 3): `children` (ordered widget handles), `wrapping`,
`orientation`, the configured animation type, `selectedIndex` (a valid index
or the sentinel "none", modelled as `Option Nat`), `scrollOffset` in pixels,
the optional active animation, and the set of registered selection listeners
(modelled as a list of opaque listener identities). -/
structure ListBoxState where
  children : List Widget
  wrapping : Bool
  orientation : ListBoxOrientation
  animationType : ListBoxAnimationType
  selectedIndex : Option Nat
  scrollOffset : Int
  anim : Option AnimParams
  listeners : List Nat
deriving DecidableEq, Repr

/-- A notification delivered to one registered `ItemSelectedListener`
(`ListBox.h` lines 37-44): either `itemSelected(sender, selectedWidget,
unselectedWidget)` or `blocked(sender, direction)`.  The `sender` is the list
box itself and is left implicit; the widget arguments are `Option` because a
selected index may have no corresponding child in a corrupt state. -/
inductive LBEvent where
  | itemSelected (listener : Nat) (selectedWidget : Option Widget)
      (unselectedWidget : Option Widget)
  | blocked (listener : Nat) (direction : Int)
deriving DecidableEq, Repr

/-- `true` exactly on `blocked` notifications. -/
def LBEvent.isBlocked : LBEvent → Bool
  | .blocked _ _ => true
  | _ => false

/-- `true` exactly on `itemSelected` notifications. -/
def LBEvent.isItemSelected : LBEvent → Bool
  | .itemSelected _ _ _ => true
  | _ => false

/-- Modelled from the spec: broadcasting `itemSelected` to every registered
listener with `(newly selected widget, previously selected widget)`. -/
def fireItemSelected (s : ListBoxState) (newIdx oldIdx : Nat) : List LBEvent :=
  s.listeners.map (fun l => .itemSelected l (s.children.get? newIdx) (s.children.get? oldIdx))

/-- Modelled from the spec: broadcasting `blocked` with the given direction to
every registered listener. -/
def fireBlocked (s : ListBoxState) (direction : Int) : List LBEvent :=
  s.listeners.map (fun l => .blocked l direction)

/-- Modelled from the spec: the common in-bounds step of navigation — set
`selectedIndex` to the candidate and, when `fire` is set, notify every
listener's `itemSelected`.  The spec also says the step scrolls the newly
selected item into view (animated or immediate); the scroll target depends on
the child layout, whose formula the spec does not give, so the scroll
side-effect is not modelled. -/
def moveSelectionTo (s : ListBoxState) (newIdx oldIdx : Nat) (fire : Bool) :
    ListBoxState × List LBEvent :=
  ({ s with selectedIndex := some newIdx },
   if fire then fireItemSelected s newIdx oldIdx else [])

/-- Modelled from the spec: `ListBox::selectNextItem` (declared in `ListBox.h`
line 97; the body is not in the visible source).  Per spec section 4.1: no-op
on an empty `children` list; candidate index is current + 1; in bounds →
select it and (when `fire`) notify `itemSelected`; out of bounds with
`wrapping` → wrap to the first item; out of bounds without `wrapping` →
selection unchanged and every listener's `blocked` fires with direction `+1`.
The spec gates only the `itemSelected` notification on the `fireListeners`
argument.  A state whose selection is the sentinel "none" is treated as a
no-op, since the spec defines the candidate only from a current selection. -/
def selectNextItem (fire : Bool) (s : ListBoxState) : ListBoxState × List LBEvent :=
  if s.children.isEmpty then (s, [])
  else
    match s.selectedIndex with
    | none => (s, [])
    | some cur =>
      if cur + 1 < s.children.length then
        moveSelectionTo s (cur + 1) cur fire
      else if s.wrapping then
        moveSelectionTo s 0 cur fire
      else
        (s, fireBlocked s 1)

/-- Modelled from the spec: `ListBox::selectPreviousItem` (declared in
`ListBox.h` line 99; the body is not in the visible source).  Symmetric to
`selectNextItem`: candidate is current − 1; out of bounds (current = 0)
with `wrapping` wraps to the last item, without `wrapping` fires `blocked`
with direction `-1`. -/
def selectPreviousItem (fire : Bool) (s : ListBoxState) : ListBoxState × List LBEvent :=
  if s.children.isEmpty then (s, [])
  else
    match s.selectedIndex with
    | none => (s, [])
    | some cur =>
      if 0 < cur then
        moveSelectionTo s (cur - 1) cur fire
      else if s.wrapping then
        moveSelectionTo s (s.children.length - 1) cur fire
      else
        (s, fireBlocked s (-1))

/-- Modelled from the spec: `ListBox::clear` (declared in `ListBox.h` line
91; the body is not in the visible source).  Per spec: removes all children,
resets selection to "none" and scroll offset to 0. -/
def clear (s : ListBoxState) : ListBoxState :=
  { s with children := [], selectedIndex := none, scrollOffset := 0 }

/-- `ListBox::getSelectedIndex` — returns the selection cursor. -/
def getSelectedIndex (s : ListBoxState) : Option Nat := s.selectedIndex

/-- `ListBox::getScrollOffset` — returns the current scroll offset in pixels. -/
def getScrollOffset (s : ListBoxState) : Int := s.scrollOffset

/-- Modelled from the spec: `ListBox::add` (declared in `ListBox.h` line 86;
the body is not in the visible source).  Per spec: appends to `children`
(insertion order = display order) and fires no selection event.  The layout
rebuild repositions children pixel-wise and is not modelled. -/
def add (w : Widget) (s : ListBoxState) : ListBoxState :=
  { s with children := s.children ++ [w] }

/-- Modelled from the spec: `ListBox::remove` (declared in `ListBox.h` line
87; the body is not in the visible source).  Per spec: deletes the entry if
present (no-op, not an error, if absent); if the removed widget held the
selection, the selection is cleared ("select nothing, deferring to caller").
A selection sitting after the removed position is shifted down by one so that
it keeps denoting the same widget — the spec's error-handling section demands
that a `selectedIndex` referencing a removed slot be structurally
unreachable.  When the handle occurs several times, the first occurrence is
removed (`List.findIdx` returns `children.length` when the handle is absent,
which the guard turns into the no-op). -/
def remove (w : Widget) (s : ListBoxState) : ListBoxState :=
  let j := s.children.findIdx (fun x => x = w)
  if j < s.children.length then
    { s with children := s.children.eraseIdx j,
             selectedIndex :=
               match s.selectedIndex with
               | none => none
               | some k => if k = j then none else if j < k then some (k - 1) else some k }
  else s

/-- Modelled from the spec: `ListBox::setSelectedIndex` (declared in
`ListBox.h` line 104; the body is not in the visible source).  Per spec the
argument is an integer; an in-range index is selected directly, and an index
outside `[0, children.length)` is rejected (the spec leaves the clamp/reject
policy to the implementation but requires the selection invariant to be
preserved; rejection is the choice modelled here). -/
def setSelectedIndex (i : Int) (s : ListBoxState) : ListBoxState :=
  if 0 ≤ i ∧ i < (s.children.length : Int) then
    { s with selectedIndex := some i.toNat }
  else s

/-- The integer linear interpolation between `offsetFrom` and `offsetTo` at
elapsed time `t` out of `duration` (pixel offsets are integers, so the
fraction is realised with integer division, as the spec's "≈" scenario
indicates). -/
def lerpOffset (a : AnimParams) (t : Nat) : Int :=
  a.offsetFrom + ((a.offsetTo - a.offsetFrom) * (t : Int)) / (a.duration : Int)

/-- Modelled from the spec: `ListBox::runTimerEvent` (declared in `ListBox.h`
line 154; the body is not in the visible source).  Per spec: on a timer tick
with an active linear animation, compute the elapsed time since `startTime`,
linearly interpolate `scrollOffset` between `offsetFrom` and `offsetTo`;
once the elapsed time reaches the duration, snap `scrollOffset = offsetTo`
and clear the animation state.  `now` is the tick's wall-clock time; an
inactive animation makes the tick a no-op. -/
def runTimerEvent (now : Nat) (s : ListBoxState) : ListBoxState :=
  match s.anim with
  | none => s
  | some a =>
    let t := now - a.startTime
    if t < a.duration then
      { s with scrollOffset := lerpOffset a t }
    else
      { s with scrollOffset := a.offsetTo, anim := none }

/-- `selectNextItem` iterated `n` times (always firing listeners),
accumulating every notification in call order. -/
def selectNextItemN : Nat → ListBoxState → ListBoxState × List LBEvent
  | 0, s => (s, [])
  | n + 1, s =>
    let p := selectNextItem true s
    let q := selectNextItemN n p.1
    (q.1, p.2 ++ q.2)

/-- The selection invariant of the spec's data model, as a decidable check:
whenever a selection exists it is a valid index into `children` (the lower
bound `0 ≤ selectedIndex` is inherent in the `Nat` index). -/
def selInvB (s : ListBoxState) : Bool :=
  match s.selectedIndex with
  | none => true
  | some i => i < s.children.length

end MAUI

/-- `FacebookObject` from `FacebookObject.cpp`: a data holder wrapping the
single string identifier member `mId`. -/
structure FacebookObject where
  mId : String
deriving DecidableEq, Repr

/-- Modelled from the spec: the default constructor `FacebookObject()` has an
empty body in `FacebookObject.cpp`; the member `mId` is declared in
`FacebookObject.h`, which is not part of the visible source, and is
default-initialised by `MAUtil::String`'s default constructor to the empty
string (the spec describes the class as "a data-holder class wrapping a
single string identifier"). -/
def FacebookObject.new : FacebookObject := { mId := "" }

/-- `FacebookObject::setId` (`FacebookObject.cpp` lines 31-34): assigns the
argument to `mId`. -/
def FacebookObject.setId (o : FacebookObject) (id : String) : FacebookObject :=
  { o with mId := id }

/-- `FacebookObject::getId` (`FacebookObject.cpp` lines 36-39): a `const`
method returning `mId`.  The embedding returns the value together with the
(unchanged) object, so that the method's non-mutation is part of the model. -/
def FacebookObject.getId (o : FacebookObject) : String × FacebookObject :=
  (o.mId, o)

namespace MAUI

/-- A concrete three-child list box with wrapping enabled, selection on the
middle item and one registered listener. -/
def exWrapState : ListBoxState :=
  { children := [10, 20, 30], wrapping := true, orientation := .LBO_VERTICAL,
    animationType := .LBA_NONE, selectedIndex := some 1, scrollOffset := 0,
    anim := none, listeners := [0] }

/-- A concrete three-child list box with wrapping enabled and the last item
selected. -/
def exLastState : ListBoxState :=
  { children := [10, 20, 30], wrapping := true, orientation := .LBO_VERTICAL,
    animationType := .LBA_NONE, selectedIndex := some 2, scrollOffset := 0,
    anim := none, listeners := [0] }

/-- A concrete one-child list box with wrapping disabled, whose single index 0
is simultaneously the first and the last index. -/
def exOneNoWrap : ListBoxState :=
  { children := [4], wrapping := false, orientation := .LBO_VERTICAL,
    animationType := .LBA_NONE, selectedIndex := some 0, scrollOffset := 0,
    anim := none, listeners := [9] }

/-- A concrete animation record: from offset 0 to offset 100 starting at time
0 with duration 10. -/
def exAnim : AnimParams :=
  { offsetFrom := 0, offsetTo := 100, startTime := 0, duration := 10 }

/-- A concrete list box with the animation `exAnim` in flight. -/
def exAnimState : ListBoxState :=
  { children := [], wrapping := true, orientation := .LBO_VERTICAL,
    animationType := .LBA_LINEAR, selectedIndex := none, scrollOffset := 0,
    anim := some exAnim, listeners := [] }

/-- A concrete list box whose children list already contains the handle 7. -/
def dupState : ListBoxState :=
  { children := [7, 8], wrapping := true, orientation := .LBO_VERTICAL,
    animationType := .LBA_NONE, selectedIndex := none, scrollOffset := 0,
    anim := none, listeners := [] }

end MAUI

namespace MAUI

theorem any_isBlocked_map_itemSelected (L : List Nat) (a b : Option Widget) :
    (L.map (fun l => LBEvent.itemSelected l a b)).any LBEvent.isBlocked = false := by
  induction L with
  | nil => rfl
  | cons x xs ih => simp [LBEvent.isBlocked, ih]

theorem any_isItemSelected_map_blocked (L : List Nat) (d : Int) :
    (L.map (fun l => LBEvent.blocked l d)).any LBEvent.isItemSelected = false := by
  induction L with
  | nil => rfl
  | cons x xs ih => simp [LBEvent.isItemSelected, ih]

/-- **C6.** After `clear()` is called, regardless of the prior state,
`getSelectedIndex` returns the "no selection" value (`none`),
`getScrollOffset` returns 0, and the children list is empty. -/
theorem clear_resets (s : ListBoxState) :
    getSelectedIndex (clear s) = none ∧ getScrollOffset (clear s) = 0 ∧
    (clear s).children = [] :=
  ⟨rfl, rfl, rfl⟩

/-- **C5.** During an active linear animation, a timer tick at elapsed time
`t < duration` sets the scroll offset to the integer linear interpolation of
`offsetFrom` and `offsetTo` at fraction `t / duration` and leaves the
animation active; a tick at elapsed time `t ≥ duration` sets the scroll
offset exactly to `offsetTo` and clears the animation state. -/
theorem runTimerEvent_linear (s : ListBoxState) (a : AnimParams) (now : Nat)
    (ha : s.anim = some a) :
    (now - a.startTime < a.duration →
      (runTimerEvent now s).scrollOffset =
        a.offsetFrom +
          (a.offsetTo - a.offsetFrom) * ((now - a.startTime : Nat) : Int) /
            (a.duration : Int) ∧
      (runTimerEvent now s).anim = some a) ∧
    (a.duration ≤ now - a.startTime →
      (runTimerEvent now s).scrollOffset = a.offsetTo ∧
      (runTimerEvent now s).anim = none) := by
  constructor
  · intro hlt
    simp only [runTimerEvent, ha]
    rw [if_pos hlt]
    exact ⟨rfl, rfl⟩
  · intro hge
    simp only [runTimerEvent, ha]
    rw [if_neg (by omega)]
    exact ⟨rfl, rfl⟩

/-- Witness for `runTimerEvent_linear`: a tick at elapsed time 5 of the
0-to-100 animation of duration 10 yields offset 50; a tick at elapsed time
10 snaps to 100 and clears the animation. -/
theorem runTimerEvent_linear_witness :
    (runTimerEvent 5 exAnimState).scrollOffset = 50 ∧
    (runTimerEvent 10 exAnimState).scrollOffset = 100 ∧
    (runTimerEvent 10 exAnimState).anim = none := by
  have h1 := (runTimerEvent_linear exAnimState exAnim 5 rfl).1 (by decide)
  have h2 := (runTimerEvent_linear exAnimState exAnim 10 rfl).2 (by decide)
  refine ⟨?_, h2.1, h2.2⟩
  rw [h1.1]
  decide

end MAUI

namespace MAUI

/-- **C7.** For a list box with 3 children, wrapping enabled and the last
index selected, `selectNextItem` wraps the selection to index 0 and fires
`itemSelected` on every registered listener with the first child as the newly
selected widget and the last child as the unselected one. -/
theorem wrap_next_scenario (w0 w1 w2 : Widget) (s : ListBoxState)
    (hc : s.children = [w0, w1, w2]) (hw : s.wrapping = true)
    (hs : s.selectedIndex = some 2) :
    (selectNextItem true s).1.selectedIndex = some 0 ∧
    (selectNextItem true s).2 =
      s.listeners.map (fun l => LBEvent.itemSelected l (some w0) (some w2)) := by
  simp [selectNextItem, hc, hs, hw, moveSelectionTo, fireItemSelected]

/-- Witness for `wrap_next_scenario` on the concrete state `exLastState`. -/
theorem wrap_next_scenario_witness :
    (selectNextItem true exLastState).1.selectedIndex = some 0 ∧
    (selectNextItem true exLastState).2 =
      [LBEvent.itemSelected 0 (some 10) (some 30)] := by
  have h := wrap_next_scenario 10 20 30 exLastState rfl rfl rfl
  exact ⟨h.1, by rw [h.2]; decide⟩

theorem findIdx_not_mem_eq_length (cs : List Widget) (w : Widget) (h : w ∉ cs) :
    cs.findIdx (fun x => x = w) = cs.length := by
  refine List.findIdx_eq_length_of_false ?_
  intro x hx
  simp only [decide_eq_false_iff_not]
  intro e
  exact h (e ▸ hx)

/-- **C8 (amended).** For a widget `w` not already among the children,
`add(w)` followed by `remove(w)` restores the children sequence exactly, and
`remove` of an absent widget is a no-op, not an error. -/
theorem add_remove_roundtrip (w : Widget) (s : ListBoxState)
    (h : w ∉ s.children) :
    (remove w (add w s)).children = s.children ∧ remove w s = s := by
  have hfind : s.children.findIdx (fun x => x = w) = s.children.length :=
    findIdx_not_mem_eq_length s.children w h
  constructor
  · have happ : (s.children ++ [w]).findIdx (fun x => x = w) = s.children.length := by
      rw [List.findIdx_append, hfind]
      simp [List.findIdx_cons]
    simp only [remove, add, happ, List.length_append, List.length_cons,
      List.length_nil]
    rw [if_pos (by omega)]
    simp [List.eraseIdx_append_of_length_le (Nat.le_refl _)]
  · simp only [remove, hfind]
    rw [if_neg (by omega)]

/-- Witness for `add_remove_roundtrip`: handle 9 is absent from `dupState`'s
children. -/
theorem add_remove_roundtrip_witness :
    (remove 9 (add 9 dupState)).children = dupState.children ∧
    remove 9 dupState = dupState :=
  add_remove_roundtrip 9 dupState (by decide)

/-- **C8 counterexample.** For the state `dupState`, whose children list
`[7, 8]` already contains the handle 7, `add(7)` followed by `remove(7)`
yields children `[8, 7]`, not the original sequence `[7, 8]`: the claim as
stated fails when the added widget is already present, because `remove`
deletes the first matching occurrence. -/
theorem add_remove_roundtrip_cex :
    ¬ ((remove 7 (add 7 dupState)).children = dupState.children) := by
  decide

end MAUI

namespace MAUI

theorem any_isBlocked_fireItemSelected (s : ListBoxState) (n o : Nat) :
    (fireItemSelected s n o).any LBEvent.isBlocked = false :=
  any_isBlocked_map_itemSelected s.listeners _ _

theorem any_isItemSelected_fireBlocked (s : ListBoxState) (d : Int) :
    (fireBlocked s d).any LBEvent.isItemSelected = false :=
  any_isItemSelected_map_blocked s.listeners d

theorem selectNextItem_events_shape (fire : Bool) (s : ListBoxState) :
    (selectNextItem fire s).2 = [] ∨
    (∃ n o, (selectNextItem fire s).2 = fireItemSelected s n o) ∨
    (selectNextItem fire s).2 = fireBlocked s 1 := by
  unfold selectNextItem
  split
  · exact Or.inl rfl
  · split
    · exact Or.inl rfl
    · split
      · cases fire
        · exact Or.inl rfl
        · exact Or.inr (Or.inl ⟨_, _, rfl⟩)
      · split
        · cases fire
          · exact Or.inl rfl
          · exact Or.inr (Or.inl ⟨_, _, rfl⟩)
        · exact Or.inr (Or.inr rfl)

theorem selectPreviousItem_events_shape (fire : Bool) (s : ListBoxState) :
    (selectPreviousItem fire s).2 = [] ∨
    (∃ n o, (selectPreviousItem fire s).2 = fireItemSelected s n o) ∨
    (selectPreviousItem fire s).2 = fireBlocked s (-1) := by
  unfold selectPreviousItem
  split
  · exact Or.inl rfl
  · split
    · exact Or.inl rfl
    · split
      · cases fire
        · exact Or.inl rfl
        · exact Or.inr (Or.inl ⟨_, _, rfl⟩)
      · split
        · cases fire
          · exact Or.inl rfl
          · exact Or.inr (Or.inl ⟨_, _, rfl⟩)
        · exact Or.inr (Or.inr rfl)

/-- **C3.** For every single call to `selectNextItem` or `selectPreviousItem`,
the `itemSelected` and `blocked` notifications are mutually exclusive: no call
produces both kinds of notification. -/
theorem itemSelected_blocked_exclusive (fire : Bool) (s : ListBoxState) :
    ((selectNextItem fire s).2.any LBEvent.isBlocked &&
      (selectNextItem fire s).2.any LBEvent.isItemSelected) = false ∧
    ((selectPreviousItem fire s).2.any LBEvent.isBlocked &&
      (selectPreviousItem fire s).2.any LBEvent.isItemSelected) = false := by
  constructor
  · rcases selectNextItem_events_shape fire s with h | ⟨n, o, h⟩ | h
    · rw [h]
      rfl
    · rw [h, any_isBlocked_fireItemSelected]
      rfl
    · rw [h, any_isItemSelected_fireBlocked]
      exact Bool.and_false _
  · rcases selectPreviousItem_events_shape fire s with h | ⟨n, o, h⟩ | h
    · rw [h]
      rfl
    · rw [h, any_isBlocked_fireItemSelected]
      rfl
    · rw [h, any_isItemSelected_fireBlocked]
      exact Bool.and_false _

end MAUI

namespace MAUI

theorem selectNextItem_wrap_step (s : ListBoxState) (i : Nat)
    (hw : s.wrapping = true) (hi : s.selectedIndex = some i)
    (hlt : i < s.children.length) :
    (selectNextItem true s).1 =
      { s with selectedIndex := some ((i + 1) % s.children.length) } ∧
    (selectNextItem true s).2.any LBEvent.isBlocked = false := by
  obtain ⟨children, wrapping, orient, anty, selIdx, so, an, L⟩ := s
  dsimp only at hw hi hlt ⊢
  subst hw
  subst hi
  cases children with
  | nil => simp at hlt
  | cons a l =>
    by_cases h1 : i < l.length
    · constructor
      · simp [selectNextItem, h1, moveSelectionTo,
          Nat.mod_eq_of_lt (by omega : i + 1 < l.length + 1)]
      · simp [selectNextItem, h1, moveSelectionTo, fireItemSelected,
          LBEvent.isBlocked]
    · have hlen : i = l.length := by
        simp only [List.length_cons] at hlt
        omega
      constructor
      · simp [selectNextItem, h1, moveSelectionTo, hlen, Nat.mod_self]
      · simp [selectNextItem, h1, moveSelectionTo, fireItemSelected,
          LBEvent.isBlocked]

theorem selectNextItemN_wrap (k : Nat) :
    ∀ (s : ListBoxState) (i : Nat), s.wrapping = true →
      s.selectedIndex = some i → i < s.children.length →
      (selectNextItemN k s).1 =
        { s with selectedIndex := some ((i + k) % s.children.length) } ∧
      (selectNextItemN k s).2.any LBEvent.isBlocked = false := by
  induction k with
  | zero =>
    intro s i hw hi hlt
    refine ⟨?_, rfl⟩
    rw [Nat.add_zero, Nat.mod_eq_of_lt hlt, ← hi]
    cases s
    rfl
  | succ k ih =>
    intro s i hw hi hlt
    have step := selectNextItem_wrap_step s i hw hi hlt
    have hpos : 0 < s.children.length := Nat.lt_of_le_of_lt (Nat.zero_le i) hlt
    have hmod : (i + 1) % s.children.length < s.children.length :=
      Nat.mod_lt _ hpos
    have ih' := ih (selectNextItem true s).1 ((i + 1) % s.children.length)
      (by rw [step.1]; exact hw) (by rw [step.1]) (by rw [step.1]; exact hmod)
    have hunfold1 : (selectNextItemN (k + 1) s).1 =
        (selectNextItemN k (selectNextItem true s).1).1 := rfl
    have hunfold2 : (selectNextItemN (k + 1) s).2 =
        (selectNextItem true s).2 ++ (selectNextItemN k (selectNextItem true s).1).2 := rfl
    constructor
    · rw [hunfold1, ih'.1, step.1]
      have harith : ((i + 1) % s.children.length + k) % s.children.length =
          (i + (k + 1)) % s.children.length := by
        have h2 : ((i + 1) % s.children.length + k) % s.children.length =
            ((i + 1) + k) % s.children.length :=
          (Nat.mod_modEq (i + 1) s.children.length).add_right k
        rw [h2]
        congr 1
        omega
      cases s
      simp only at harith ⊢
      rw [harith]
    · rw [hunfold2, List.any_append, step.2, ih'.2]
      rfl

theorem selectNextItem_none_noop (fire : Bool) (s : ListBoxState)
    (h : s.selectedIndex = none) : selectNextItem fire s = (s, []) := by
  unfold selectNextItem
  by_cases he : s.children.isEmpty
  · rw [if_pos he]
  · rw [if_neg he, h]

theorem selectNextItemN_none (k : Nat) (s : ListBoxState)
    (h : s.selectedIndex = none) : selectNextItemN k s = (s, []) := by
  induction k with
  | zero => rfl
  | succ k ih =>
    have hd : selectNextItemN (k + 1) s =
        ((selectNextItemN k (selectNextItem true s).1).1,
         (selectNextItem true s).2 ++
           (selectNextItemN k (selectNextItem true s).1).2) := rfl
    rw [hd, selectNextItem_none_noop true s h]
    show ((selectNextItemN k s).1, [] ++ (selectNextItemN k s).2) = (s, [])
    rw [ih]
    rfl

/-- **C1.** For every children list with wrapping enabled, starting from any
state satisfying the selection invariant, calling `selectNextItem` exactly
`children.length` times returns `selectedIndex` to its original value, and
no `blocked` notification fires during any of those calls. -/
theorem selectNextItem_wrap_cycle (s : ListBoxState)
    (hw : s.wrapping = true) (hinv : selInvB s = true) :
    (selectNextItemN s.children.length s).1.selectedIndex = s.selectedIndex ∧
    (selectNextItemN s.children.length s).2.any LBEvent.isBlocked = false := by
  cases hsel : s.selectedIndex with
  | none =>
    rw [selectNextItemN_none s.children.length s hsel]
    exact ⟨hsel, rfl⟩
  | some i =>
    have hlt : i < s.children.length := by
      simpa [selInvB, hsel] using hinv
    obtain ⟨h1, h2⟩ := selectNextItemN_wrap s.children.length s i hw hsel hlt
    refine ⟨?_, h2⟩
    rw [h1]
    show some ((i + s.children.length) % s.children.length) = some i
    rw [Nat.add_mod_right, Nat.mod_eq_of_lt hlt]

/-- Witness for `selectNextItem_wrap_cycle` on the concrete three-child
state `exWrapState`. -/
theorem selectNextItem_wrap_cycle_witness :
    (selectNextItemN exWrapState.children.length exWrapState).1.selectedIndex =
      exWrapState.selectedIndex ∧
    (selectNextItemN exWrapState.children.length exWrapState).2.any
      LBEvent.isBlocked = false :=
  selectNextItem_wrap_cycle exWrapState rfl (by decide)

end MAUI

namespace MAUI

theorem selectPreviousItem_blocked_inversion (fire : Bool) (s : ListBoxState)
    (hb : (selectPreviousItem fire s).2.any LBEvent.isBlocked = true) :
    s.wrapping = false ∧ s.selectedIndex = some 0 := by
  obtain ⟨children, wrapping, orient, anty, selIdx, so, an, L⟩ := s
  cases children with
  | nil => simp [selectPreviousItem] at hb
  | cons a l =>
    cases selIdx with
    | none => simp [selectPreviousItem] at hb
    | some cur =>
      by_cases h0 : 0 < cur
      · exfalso
        cases fire <;>
          simp [selectPreviousItem, h0, moveSelectionTo, fireItemSelected,
            LBEvent.isBlocked] at hb
      · cases wrapping with
        | false =>
          refine ⟨rfl, ?_⟩
          have : cur = 0 := by omega
          rw [this]
        | true =>
          exfalso
          cases fire <;>
            simp [selectPreviousItem, h0, moveSelectionTo, fireItemSelected,
              LBEvent.isBlocked] at hb

theorem selectNextItem_blocked_inversion (fire : Bool) (s : ListBoxState)
    (hb : (selectNextItem fire s).2.any LBEvent.isBlocked = true) :
    s.wrapping = false ∧
    ∃ cur, s.selectedIndex = some cur ∧ s.children.length ≤ cur + 1 := by
  obtain ⟨children, wrapping, orient, anty, selIdx, so, an, L⟩ := s
  cases children with
  | nil => simp [selectNextItem] at hb
  | cons a l =>
    cases selIdx with
    | none => simp [selectNextItem] at hb
    | some cur =>
      by_cases h1 : cur < l.length
      · exfalso
        cases fire <;>
          simp [selectNextItem, h1, moveSelectionTo, fireItemSelected,
            LBEvent.isBlocked] at hb
      · cases wrapping with
        | false =>
          refine ⟨rfl, cur, rfl, ?_⟩
          simp only [List.length_cons]
          omega
        | true =>
          exfalso
          cases fire <;>
            simp [selectNextItem, h1, moveSelectionTo, fireItemSelected,
              LBEvent.isBlocked] at hb

/-- **C2.** With wrapping disabled and a valid selection: `selectPreviousItem`
at index 0 leaves the whole state (in particular `selectedIndex`) unchanged
and fires exactly one `blocked` notification with direction `-1` on every
registered listener; symmetrically `selectNextItem` at the last index leaves
the state unchanged and fires `blocked` with direction `+1` on every
registered listener; and these boundary cases are the only ones in which a
navigation call fires `blocked`. -/
theorem blocked_boundary (s : ListBoxState) (fire : Bool) (i : Nat)
    (hsel : s.selectedIndex = some i) (hlen : i < s.children.length) :
    (s.wrapping = false → i = 0 →
      (selectPreviousItem fire s).1 = s ∧
      (selectPreviousItem fire s).2 =
        s.listeners.map (fun l => LBEvent.blocked l (-1))) ∧
    (s.wrapping = false → i = s.children.length - 1 →
      (selectNextItem fire s).1 = s ∧
      (selectNextItem fire s).2 =
        s.listeners.map (fun l => LBEvent.blocked l 1)) ∧
    ((selectPreviousItem fire s).2.any LBEvent.isBlocked = true →
      s.wrapping = false ∧ i = 0) ∧
    ((selectNextItem fire s).2.any LBEvent.isBlocked = true →
      s.wrapping = false ∧ i = s.children.length - 1) := by
  have hne : s.children.isEmpty = false := by
    cases hc : s.children with
    | nil => rw [hc] at hlen; simp at hlen
    | cons a l => rfl
  refine ⟨?_, ?_, ?_, ?_⟩
  · intro hw hi0
    subst hi0
    simp [selectPreviousItem, hne, hsel, hw, fireBlocked]
  · intro hw hi
    have hc : ¬ (i + 1 < s.children.length) := by omega
    simp [selectNextItem, hne, hsel, hw, hc, fireBlocked]
  · intro hb
    obtain ⟨hw, h0⟩ := selectPreviousItem_blocked_inversion fire s hb
    rw [hsel] at h0
    exact ⟨hw, Option.some.inj h0⟩
  · intro hb
    obtain ⟨hw, cur, hc, hle⟩ := selectNextItem_blocked_inversion fire s hb
    rw [hsel] at hc
    have : i = cur := Option.some.inj hc
    subst this
    exact ⟨hw, by omega⟩

/-- Witness for `blocked_boundary` on the one-child non-wrapping state
`exOneNoWrap`, where index 0 is both the first and the last index. -/
theorem blocked_boundary_witness :
    (selectPreviousItem true exOneNoWrap).1 = exOneNoWrap ∧
    (selectPreviousItem true exOneNoWrap).2 = [LBEvent.blocked 9 (-1)] ∧
    (selectNextItem true exOneNoWrap).1 = exOneNoWrap ∧
    (selectNextItem true exOneNoWrap).2 = [LBEvent.blocked 9 1] := by
  have h := blocked_boundary exOneNoWrap true 0 rfl (by decide)
  have hp := h.1 rfl rfl
  have hn := h.2.1 rfl (by decide)
  exact ⟨hp.1, by rw [hp.2]; decide, hn.1, by rw [hn.2]; decide⟩

end MAUI

namespace MAUI

theorem selInvB_selectNextItem (fire : Bool) (s : ListBoxState)
    (h : selInvB s = true) : selInvB (selectNextItem fire s).1 = true := by
  obtain ⟨children, wrapping, orient, anty, selIdx, so, an, L⟩ := s
  cases children with
  | nil => exact h
  | cons a l =>
    cases selIdx with
    | none => exact h
    | some cur =>
      simp only [selInvB, decide_eq_true_eq] at h
      by_cases h1 : cur < l.length
      · simp [selectNextItem, h1, moveSelectionTo, selInvB]
      · cases wrapping with
        | false => simpa [selectNextItem, h1, selInvB] using h
        | true => simp [selectNextItem, h1, moveSelectionTo, selInvB]

theorem selInvB_selectPreviousItem (fire : Bool) (s : ListBoxState)
    (h : selInvB s = true) : selInvB (selectPreviousItem fire s).1 = true := by
  obtain ⟨children, wrapping, orient, anty, selIdx, so, an, L⟩ := s
  cases children with
  | nil => exact h
  | cons a l =>
    cases selIdx with
    | none => exact h
    | some cur =>
      simp only [selInvB, decide_eq_true_eq] at h
      by_cases h0 : 0 < cur
      · have hgoal : cur - 1 < l.length + 1 := by
          simp only [List.length_cons] at h
          omega
        simp [selectPreviousItem, h0, moveSelectionTo, selInvB, hgoal]
      · cases wrapping with
        | false => simpa [selectPreviousItem, h0, selInvB] using h
        | true =>
          simp [selectPreviousItem, h0, moveSelectionTo, selInvB]

theorem selInvB_setSelectedIndex (j : Int) (s : ListBoxState)
    (h : selInvB s = true) : selInvB (setSelectedIndex j s) = true := by
  obtain ⟨children, wrapping, orient, anty, selIdx, so, an, L⟩ := s
  by_cases hj : 0 ≤ j ∧ j < (children.length : Int)
  · simp only [setSelectedIndex, hj, if_pos, and_self, selInvB,
      decide_eq_true_eq]
    omega
  · simpa [setSelectedIndex, hj] using h

theorem setSelectedIndex_reject (j : Int) (s : ListBoxState)
    (hj : ¬ (0 ≤ j ∧ j < (s.children.length : Int))) :
    setSelectedIndex j s = s := by
  unfold setSelectedIndex
  rw [if_neg hj]

theorem selInvB_add (w : Widget) (s : ListBoxState)
    (h : selInvB s = true) : selInvB (add w s) = true := by
  obtain ⟨children, wrapping, orient, anty, selIdx, so, an, L⟩ := s
  cases selIdx with
  | none => rfl
  | some k =>
    simp only [selInvB, decide_eq_true_eq] at h
    simp only [add, selInvB, List.length_append, decide_eq_true_eq]
    omega

theorem selInvB_remove (w : Widget) (s : ListBoxState)
    (h : selInvB s = true) : selInvB (remove w s) = true := by
  obtain ⟨children, wrapping, orient, anty, selIdx, so, an, L⟩ := s
  simp only [remove]
  by_cases hj : children.findIdx (fun x => x = w) < children.length
  · rw [if_pos hj]
    cases selIdx with
    | none => rfl
    | some k =>
      simp only [selInvB, decide_eq_true_eq] at h
      dsimp only
      by_cases hk : k = children.findIdx (fun x => x = w)
      · rw [if_pos hk]
        rfl
      · rw [if_neg hk]
        by_cases hjk : children.findIdx (fun x => x = w) < k
        · rw [if_pos hjk]
          simp only [selInvB, decide_eq_true_eq]
          rw [List.length_eraseIdx, if_pos hj]
          omega
        · rw [if_neg hjk]
          simp only [selInvB, decide_eq_true_eq]
          rw [List.length_eraseIdx, if_pos hj]
          omega
  · rw [if_neg hj]
    exact h

theorem selInvB_runTimerEvent (now : Nat) (s : ListBoxState)
    (h : selInvB s = true) : selInvB (runTimerEvent now s) = true := by
  obtain ⟨children, wrapping, orient, anty, selIdx, so, an, L⟩ := s
  cases an with
  | none => exact h
  | some a =>
    by_cases ht : now - a.startTime < a.duration
    · simpa [runTimerEvent, ht, selInvB] using h
    · simpa [runTimerEvent, ht, selInvB] using h

/-- **C4.** Whenever a selection exists it is a valid index into `children`
(`selInvB`), every operation preserves this invariant, and
`setSelectedIndex(i)` with `i` outside `[0, children.length)` is rejected,
leaving the state — in particular `selectedIndex` — unchanged. -/
theorem selection_invariant_preserved (s : ListBoxState) (fire : Bool)
    (j : Int) (w : Widget) (now : Nat) (h : selInvB s = true) :
    selInvB (selectNextItem fire s).1 = true ∧
    selInvB (selectPreviousItem fire s).1 = true ∧
    selInvB (setSelectedIndex j s) = true ∧
    selInvB (add w s) = true ∧
    selInvB (remove w s) = true ∧
    selInvB (clear s) = true ∧
    selInvB (runTimerEvent now s) = true ∧
    (¬ (0 ≤ j ∧ j < (s.children.length : Int)) → setSelectedIndex j s = s) :=
  ⟨selInvB_selectNextItem fire s h, selInvB_selectPreviousItem fire s h,
   selInvB_setSelectedIndex j s h, selInvB_add w s h, selInvB_remove w s h,
   rfl, selInvB_runTimerEvent now s h,
   fun hj => setSelectedIndex_reject j s hj⟩

/-- Witness for `selection_invariant_preserved` on the concrete state
`exWrapState` with the out-of-range index -5. -/
theorem selection_invariant_preserved_witness :
    selInvB exWrapState = true ∧
    selInvB (selectNextItem true exWrapState).1 = true ∧
    selInvB (selectPreviousItem true exWrapState).1 = true ∧
    selInvB (setSelectedIndex (-5) exWrapState) = true ∧
    selInvB (add 20 exWrapState) = true ∧
    selInvB (remove 20 exWrapState) = true ∧
    selInvB (clear exWrapState) = true ∧
    selInvB (runTimerEvent 0 exWrapState) = true ∧
    setSelectedIndex (-5) exWrapState = exWrapState := by
  have h := selection_invariant_preserved exWrapState true (-5) 20 0 rfl
  exact ⟨rfl, h.1, h.2.1, h.2.2.1, h.2.2.2.1, h.2.2.2.2.1, h.2.2.2.2.2.1,
    h.2.2.2.2.2.2.1, h.2.2.2.2.2.2.2 (by decide)⟩

end MAUI

/-- **C9.** For every string `s`, `setId(s)` followed by `getId()` returns a
string equal to `s`, and `setId` unconditionally overwrites any previously
stored id. -/
theorem FacebookObject.setId_getId_roundtrip (o : FacebookObject) (s t : String) :
    ((o.setId s).getId).1 = s ∧ (o.setId t).setId s = o.setId s :=
  ⟨rfl, rfl⟩

/-- **C10.** A freshly default-constructed `FacebookObject` has an empty id:
`getId` before any `setId` returns the empty string, and `getId` never
modifies the object. -/
theorem FacebookObject.getId_default_empty (o : FacebookObject) :
    ((FacebookObject.new).getId).1 = "" ∧ (o.getId).2 = o :=
  ⟨rfl, rfl⟩
